import Mathlib

/-!
Verification of the PyWO event dispatch core.

This file gives a shallow embedding of the event-routing engine of the
PyWO window organizer: `pywo/dispatch.py` (the `EventDispatcher` class)
and the two historical variants of the event-handler hierarchy,
`pywo/core/events.py` and `trunk/events.py`.

Python dictionaries are embedded as association lists over `Nat` keys
(window ids and X event type tags are numeric ids).  Python sets of mask
bits become `Finset Nat`.  Handler objects are embedded as records whose
`hid` field stands for the Python object identity; the behaviour of the
opaque user callbacks is abstracted by a Boolean oracle saying whether a
given callback raises on a given event.
-/

set_option linter.unusedVariables false

namespace PyWO

/-! ### X protocol constants (from the Xlib `X` module) -/

namespace X

def ShiftMask : Nat := 1
def ControlMask : Nat := 4
def Mod1Mask : Nat := 8
def Mod4Mask : Nat := 64
def AnyModifier : Nat := 32768
def KeyPress : Nat := 2
def KeyRelease : Nat := 3
def FocusIn : Nat := 9
def FocusOut : Nat := 10
def CreateNotify : Nat := 16
def DestroyNotify : Nat := 17
def ConfigureNotify : Nat := 22
def PropertyNotify : Nat := 28
def KeyPressMask : Nat := 1
def KeyReleaseMask : Nat := 2
def StructureNotifyMask : Nat := 131072
def SubstructureNotifyMask : Nat := 524288
def FocusChangeMask : Nat := 2097152
def PropertyChangeMask : Nat := 4194304

end X

/-! ### Association lists standing for Python dicts

`alookup` is `d.get(k)` / `k in d`, `aset` is `d[k] = v` (in-place update
of an existing key, insertion at the end otherwise, matching insertion
order of Python dicts), `aerase` is `del d[k]`. -/

def alookup {α : Type} : List (Nat × α) → Nat → Option α
  | [], _ => none
  | (k, v) :: rest, key => if k = key then some v else alookup rest key

def aset {α : Type} : List (Nat × α) → Nat → α → List (Nat × α)
  | [], key, v => [(key, v)]
  | (k, w) :: rest, key, v =>
      if k = key then (k, v) :: rest else (k, w) :: aset rest key v

def aerase {α : Type} : List (Nat × α) → Nat → List (Nat × α)
  | [], _ => []
  | (k, w) :: rest, key => if k = key then rest else (k, w) :: aerase rest key

def akeys {α : Type} (l : List (Nat × α)) : List Nat := l.map Prod.fst

/-- Python dicts never hold a duplicated key. -/
abbrev nodupKeys {α : Type} (l : List (Nat × α)) : Prop := (akeys l).Nodup

/-! ### `pywo/dispatch.py` — the `EventDispatcher` -/

/-- An abstract event handler as `EventDispatcher` sees it: `types` is
`handler.types` (the keys of the kind → callback mapping, hence no
duplicates in the real program), `masks` is `handler.masks`, and `hid`
stands for the Python object identity used by `in` / `list.remove`. -/
structure Handler where
  hid : Nat
  types : List Nat
  masks : List Nat
deriving DecidableEq

/-- `{event_type: [handler, ...]}` — the per-window level of
`EventDispatcher.__handlers`. -/
abbrev KindMap := List (Nat × List Handler)

/-- `{window.id: {event_type: [handler, ...]}}` — `self.__handlers`. -/
abbrev Registry := List (Nat × KindMap)

/-- Raw X event as inspected by `EventDispatcher.__dispatch`: `window` is
`event.window.id` when `hasattr(event, 'window')`, `event` is
`event.event.id` when `hasattr(event, 'event')`. -/
structure RawEvent where
  window : Option Nat
  event : Option Nat
  type : Nat
deriving DecidableEq

namespace EventDispatcher

/-- The handler list registered for event type `t` on one window
(`window_handlers.get(t, [])`). -/
def kindList (wh : KindMap) (t : Nat) : List Handler := (alookup wh t).getD []

/-- Union of `handler.masks` over a handler list (Python builds a `set`). -/
def maskOfList (l : List Handler) : Finset Nat :=
  l.foldr (fun h acc => h.masks.toFinset ∪ acc) ∅

/-- Union of `handler.masks` over every handler of every type list of one
window's kind map (the inner loops of `__get_masks`). -/
def windowMask (wh : KindMap) : Finset Nat :=
  wh.foldr (fun p acc => maskOfList p.2 ∪ acc) ∅

/-- `EventDispatcher.__get_masks(window_id)`. -/
def get_masks (handlers : Registry) (window_id : Nat) : Finset Nat :=
  windowMask ((alookup handlers window_id).getD [])

/-- One iteration of the `for type in handler.types` loop of `register`:
`window_handlers.setdefault(type, []).append(handler)`. -/
def regStep (handler : Handler) (wh : KindMap) (t : Nat) : KindMap :=
  aset wh t (kindList wh t ++ [handler])

/-- `EventDispatcher.register(window, handler)`: inserts the handler under
every one of its types and returns the updated registry together with the
recomputed composite mask for the window.  (The thread-restart side
effect is part of `DState.stepOp` below.) -/
def register (handlers : Registry) (window_id : Nat) (handler : Handler) :
    Registry × Finset Nat :=
  let wh := (alookup handlers window_id).getD []
  let wh2 := handler.types.foldl (regStep handler) wh
  let handlers2 := aset handlers window_id wh2
  (handlers2, get_masks handlers2 window_id)

/-- One iteration of the `for type in handler.types` loop of `unregister`:
remove the handler from the type list if present, and prune the type key
when its list became (or already was) empty. -/
def unregStep (handler : Handler) (wh : KindMap) (t : Nat) : KindMap :=
  let tl := kindList wh t
  let tl2 := if handler ∈ tl then tl.erase handler else tl
  if tl2.isEmpty then aerase wh t else aset wh t tl2

/-- The branch bodies of `unregister` for a given window: window missing
from the registry — `log.error`, no change; no handler — drop the whole
window entry; handler given — remove it from each of its type lists,
pruning empty lists. -/
def unregisterCore (handlers : Registry) (wid : Nat)
    (handler : Option Handler) : Registry :=
  match alookup handlers wid, handler with
  | none, _ => handlers
  | some _, none => aerase handlers wid
  | some wh, some h => aset handlers wid (h.types.foldl (unregStep h) wh)

/-- The closing `if not self.__handlers.setdefault(window.id, {}):
del self.__handlers[window.id]` of `unregister`: prune the window entry
when its kind map is empty (the `setdefault` side effect of inserting and
immediately deleting an empty dict cancels out). -/
def pruneWindow (handlers : Registry) (wid : Nat) : Registry :=
  match alookup handlers wid with
  | none => handlers
  | some wh => if wh.isEmpty then aerase handlers wid else handlers

/-- `EventDispatcher.unregister(window, handler)` with its three modes:
no window — clear everything (Python returns `[]`, embedded as the empty
mask set); otherwise `unregisterCore` followed by `pruneWindow`, and the
recomputed composite mask of the window is returned. -/
def unregister (handlers : Registry) (window : Option Nat)
    (handler : Option Handler) : Registry × Finset Nat :=
  match window with
  | none => ([], ∅)
  | some wid =>
    let h2 : Registry := pruneWindow (unregisterCore handlers wid handler) wid
    (h2, get_masks h2 wid)

/-- Target-window resolution of `__dispatch`: the window the event is
reported on (`event.window.id`), else the window it is reported for
(`event.event.id`), else the root window — each only when that window id
has registered handlers. -/
def resolve (handlers : Registry) (root : Nat) (ev : RawEvent) :
    Option KindMap :=
  match ev.window.bind (alookup handlers) with
  | some wh => some wh
  | none =>
    match ev.event.bind (alookup handlers) with
    | some wh => some wh
    | none => alookup handlers root

/-- The `for handler in handlers[event.type]: handler.handle_event(event)`
loop.  `raises hid ev` abstracts whether the opaque user callback of the
handler with identity `hid` raises on `ev`.  `handle_event` itself raises
a `KeyError` when the event type is not in the handler's mapping.  There
is no `try`/`except` anywhere on this path, so the first exception
aborts the loop.  Returns the identities of the handlers whose callback
ran, and whether an exception escaped. -/
def invokeHandlers (raises : Nat → RawEvent → Bool) (ev : RawEvent) :
    List Handler → List Nat × Bool
  | [] => ([], false)
  | h :: rest =>
    if ev.type ∈ h.types then
      if raises h.hid ev then ([h.hid], true)
      else
        let r := invokeHandlers raises ev rest
        (h.hid :: r.1, r.2)
    else ([], true)

/-- Observable outcome of one `__dispatch` call: `noWindow` is the
`log.error('No handler for this event ...')` + drop branch, `skippedType`
the silent `return` when the event type has no handler list, `delivered
invoked exc` the invocation loop with its trace and escaped-exception
flag. -/
inductive DispatchOutcome where
  | noWindow : DispatchOutcome
  | skippedType : DispatchOutcome
  | delivered : List Nat → Bool → DispatchOutcome
deriving DecidableEq

/-- `EventDispatcher.__dispatch(event)`. -/
def dispatch (raises : Nat → RawEvent → Bool) (handlers : Registry)
    (root : Nat) (ev : RawEvent) : DispatchOutcome :=
  match resolve handlers root ev with
  | none => .noWindow
  | some wh =>
    match alookup wh ev.type with
    | none => .skippedType
    | some tl =>
      let r := invokeHandlers raises ev tl
      .delivered r.1 r.2

def excOf : DispatchOutcome → Bool
  | .delivered _ e => e
  | _ => false

/-- The inner `while self.__display.pending_events(): self.__dispatch(...)`
drain of `run`, on the queue of currently pending events.  An exception
escaping `__dispatch` kills the dispatcher thread: the result is `none`
and the remaining events are never dispatched. -/
def drain (raises : Nat → RawEvent → Bool) (handlers : Registry)
    (root : Nat) : List RawEvent → Option (List DispatchOutcome)
  | [] => some []
  | ev :: rest =>
    let o := dispatch raises handlers root ev
    if excOf o then none
    else (drain raises handlers root rest).map (o :: ·)

end EventDispatcher

/-! ### Dispatcher lifecycle (thread start in `register`, the
`while self.__handlers` guard of `run`) as a state machine -/

/-- Dispatcher state: the registry plus whether the pump thread is alive
(`self.__thread and self.__thread.isAlive()`). -/
structure DState where
  handlers : Registry
  threadAlive : Bool
deriving DecidableEq

/-- Atomic operations on the dispatcher: a `register` call (which starts
a pump thread whenever none is alive), an `unregister` call (which never
touches the thread), and one evaluation of the pump loop's
`while self.__handlers` guard, which stops the thread exactly when the
registry is empty. -/
inductive Op where
  | reg : Nat → Handler → Op
  | unreg : Option Nat → Option Handler → Op
  | pumpCheck : Op

def stepOp (s : DState) : Op → DState
  | .reg w h =>
      { handlers := (EventDispatcher.register s.handlers w h).1
        threadAlive := true }
  | .unreg w h =>
      { handlers := (EventDispatcher.unregister s.handlers w h).1
        threadAlive := s.threadAlive }
  | .pumpCheck =>
      if s.handlers.isEmpty then { s with threadAlive := false } else s

/-- Fresh `EventDispatcher(display)`: empty registry, no thread. -/
def initState : DState := { handlers := [], threadAlive := false }

def runOps (ops : List Op) : DState := ops.foldl stepOp initState

/-- The registry is pruned: no window entry with an empty kind map and no
kind entry with an empty handler list. -/
def wellPruned (st : Registry) : Bool :=
  st.all fun p => !p.2.isEmpty && p.2.all fun q => !q.2.isEmpty

/-- Does the operation only register handlers that declare at least one
event type?  (True of every `EventHandler` subclass in the repository.) -/
def opTypesNonempty : Op → Prop
  | .reg _ h => h.types ≠ []
  | _ => True

/-! ### `events.py` — decoded events and concrete handlers

The two historical variants, `pywo/core/events.py` (namespace `Core`) and
`trunk/events.py` (namespace `Trunk`), share the key-event decoding code
verbatim; they differ in the `KeyHandler` gate and in the
`ConfigureNotifyHandler` mapping key. -/

/-- Raw `X.KeyPress` / `X.KeyRelease` event fields read by `KeyEvent`. -/
structure RawKeyEvent where
  type : Nat
  window : Nat
  detail : Nat
  state : Nat
deriving DecidableEq

/-- `KeyEvent.__KEY_MODIFIERS`, identical in both variants. -/
def KEY_MODIFIERS : List Nat := [X.ShiftMask, X.ControlMask, X.Mod1Mask, X.Mod4Mask]

namespace KeyEvent

/-- `KeyEvent.__get_modifiers_keycode(event)` (identical in
`pywo/core/events.py` and `trunk/events.py`): keep only the tracked
modifier bits of `event.state`; `modifiers or X.AnyModifier` maps a zero
result to the sentinel. -/
def get_modifiers_keycode (detail state : Nat) : Nat × Nat :=
  let modifiers :=
    KEY_MODIFIERS.foldl (fun m modifier => if state &&& modifier ≠ 0 then m ||| modifier else m) 0
  (if modifiers = 0 then X.AnyModifier else modifiers, detail)

end KeyEvent

/-- Decoded `KeyEvent` attributes set by `KeyEvent.__init__`. -/
structure KeyEventV where
  type : Nat
  window_id : Nat
  modifiers : Nat
  keycode : Nat
deriving DecidableEq

def KeyEventV.ofRaw (e : RawKeyEvent) : KeyEventV :=
  let mk := KeyEvent.get_modifiers_keycode e.detail e.state
  ⟨e.type, e.window, mk.1, mk.2⟩

/-- Raw `X.CreateNotify` event fields read by `CreateNotifyEvent`. -/
structure RawCreateEvent where
  type : Nat
  window : Nat
  parent : Nat
  border_width : Nat
  override : Bool
deriving DecidableEq

/-- Decoded `CreateNotifyEvent` attributes set by its `__init__`
(`geometry` is a lazy property over the retained raw event and is not a
stored attribute). -/
structure CreateNotifyEventV where
  type : Nat
  window_id : Nat
  parent_id : Nat
  border_width : Nat
  override : Bool
deriving DecidableEq

def CreateNotifyEventV.ofRaw (e : RawCreateEvent) : CreateNotifyEventV :=
  ⟨e.type, e.window, e.parent, e.border_width, e.override⟩

/-- Which user-supplied callback a key handler fired. -/
inductive KeyCallback where
  | press : KeyCallback
  | release : KeyCallback
deriving DecidableEq

namespace Core

/-- `pywo/core/events.py` `KeyHandler`: `key_press_cb` / `key_release_cb`
record whether the optional `key_press` / `key_release` callback
functions were supplied; `keys` is the `(mask, keycode)` list. -/
structure KeyHandler where
  key_press_cb : Bool
  key_release_cb : Bool
  keys : List (Nat × Nat)
  numlock : Nat
  capslock : Nat
deriving DecidableEq

/-- `KeyHandler.key_press`: fire the user callback only when it was
supplied and `(event.modifiers, event.keycode) in self.keys`.  Returns
the event passed to the user callback, or `none` when dropped. -/
def KeyHandler.key_press (kh : KeyHandler) (event : KeyEventV) : Option KeyEventV :=
  if kh.key_press_cb && decide ((event.modifiers, event.keycode) ∈ kh.keys)
  then some event else none

/-- `KeyHandler.key_release`, same gate as `key_press`. -/
def KeyHandler.key_release (kh : KeyHandler) (event : KeyEventV) : Option KeyEventV :=
  if kh.key_release_cb && decide ((event.modifiers, event.keycode) ∈ kh.keys)
  then some event else none

/-- `EventHandler.handle_event` specialised to `KeyHandler`'s mapping
`{X.KeyPress: (KeyEvent, self.key_press), X.KeyRelease: (KeyEvent,
self.key_release)}`; any other event type raises `KeyError` (`.error`). -/
def KeyHandler.handle_event (kh : KeyHandler) (raw : RawKeyEvent) :
    Except Unit (Option (KeyCallback × KeyEventV)) :=
  if raw.type = X.KeyPress then
    .ok ((kh.key_press (KeyEventV.ofRaw raw)).map fun e => (.press, e))
  else if raw.type = X.KeyRelease then
    .ok ((kh.key_release (KeyEventV.ofRaw raw)).map fun e => (.release, e))
  else .error ()

/-- `CreateNotifyHandler.create`: only events with `override=False` reach
the user callback, and only when one was supplied.  Returns the event
passed to the user callback, or `none` when suppressed. -/
def CreateNotifyHandler.create (create_cb : Bool) (event : CreateNotifyEventV) :
    Option CreateNotifyEventV :=
  if !event.override && create_cb then some event else none

/-- `EventHandler.handle_event` specialised to `CreateNotifyHandler`'s
mapping `{X.CreateNotify: (CreateNotifyEvent, self.create)}`. -/
def CreateNotifyHandler.handle_event (create_cb : Bool) (raw : RawCreateEvent) :
    Except Unit (Option CreateNotifyEventV) :=
  if raw.type = X.CreateNotify then
    .ok (CreateNotifyHandler.create create_cb (CreateNotifyEventV.ofRaw raw))
  else .error ()

/-- The kind → (decoder, bound method) mapping of
`pywo/core/events.py`'s `ConfigureNotifyHandler.__init__`:
`{X.ConfigureNotify: (ConfigureNotifyEvent, self.configure)}`.
The payload records the decoder/method pair symbolically. -/
def ConfigureNotifyHandler.mapping : List (Nat × String) :=
  [(X.ConfigureNotify, "configure")]

/-- `EventHandler.types` for the `pywo/core` `ConfigureNotifyHandler`. -/
def ConfigureNotifyHandler.types : List Nat :=
  ConfigureNotifyHandler.mapping.map Prod.fst

end Core

namespace Trunk

/-- `trunk/events.py` `KeyHandler.key_press`: only the callback-supplied
check, no membership test against `self.keys`. -/
def KeyHandler.key_press (key_press_cb : Bool) (event : KeyEventV) : Option KeyEventV :=
  if key_press_cb then some event else none

/-- The kind → (decoder, bound method) mapping of `trunk/events.py`'s
`ConfigureNotifyHandler.__init__`:
`{X.PropertyNotify: (ConfigureNotifyEvent, self.configure)}`. -/
def ConfigureNotifyHandler.mapping : List (Nat × String) :=
  [(X.PropertyNotify, "configure")]

/-- `EventHandler.types` for the `trunk` `ConfigureNotifyHandler`. -/
def ConfigureNotifyHandler.types : List Nat :=
  ConfigureNotifyHandler.mapping.map Prod.fst

end Trunk

/-! ## Association-list lemmas -/

theorem alookup_aset_self {α : Type} (l : List (Nat × α)) (k : Nat) (v : α) :
    alookup (aset l k v) k = some v := by
  induction l with
  | nil => simp [aset, alookup]
  | cons p rest ih =>
    by_cases h : p.1 = k
    · simp [aset, alookup, h]
    · simp [aset, alookup, h, ih]

theorem alookup_aset_ne {α : Type} (l : List (Nat × α)) (k k' : Nat) (v : α)
    (h : k' ≠ k) : alookup (aset l k v) k' = alookup l k' := by
  have hk : ¬ k = k' := fun e => h e.symm
  induction l with
  | nil => simp [aset, alookup, hk]
  | cons p rest ih =>
    by_cases hp : p.1 = k
    · subst hp
      simp [aset, alookup, hk]
    · by_cases hp' : p.1 = k'
      · simp [aset, alookup, hp, hp', h]
      · simp [aset, alookup, hp, hp', ih]

theorem alookup_aerase_ne {α : Type} (l : List (Nat × α)) (k k' : Nat)
    (h : k' ≠ k) : alookup (aerase l k) k' = alookup l k' := by
  have hk : ¬ k = k' := fun e => h e.symm
  induction l with
  | nil => simp [aerase]
  | cons p rest ih =>
    by_cases hp : p.1 = k
    · subst hp
      simp [aerase, alookup, hk]
    · by_cases hp' : p.1 = k'
      · simp [aerase, alookup, hp, hp', h]
      · simp [aerase, alookup, hp, hp', ih]

theorem akeys_cons {α : Type} (p : Nat × α) (l : List (Nat × α)) :
    akeys (p :: l) = p.1 :: akeys l := rfl

theorem alookup_eq_none_iff {α : Type} (l : List (Nat × α)) (k : Nat) :
    alookup l k = none ↔ k ∉ akeys l := by
  induction l with
  | nil => simp [alookup, akeys]
  | cons p rest ih =>
    by_cases hp : p.1 = k
    · simp [alookup, akeys_cons, hp]
    · have hk : ¬ k = p.1 := fun e => hp e.symm
      simp only [alookup, akeys_cons, hp, if_false, List.mem_cons, ih]
      tauto

theorem mem_akeys_aset {α : Type} (l : List (Nat × α)) (k t : Nat) (v : α)
    (h : t ∈ akeys (aset l k v)) : t ∈ akeys l ∨ t = k := by
  induction l with
  | nil =>
    right
    simpa [aset, akeys] using h
  | cons p rest ih =>
    obtain ⟨a, b⟩ := p
    by_cases hp : a = k
    · left
      have h' : t ∈ (a : Nat) :: akeys rest := by
        simpa only [aset, hp, if_true, akeys_cons] using h
      simpa only [akeys_cons, List.mem_cons] using h'
    · have h' : t = a ∨ t ∈ akeys (aset rest k v) := by
        simpa only [aset, hp, if_false, akeys_cons, List.mem_cons] using h
      rcases h' with h' | h'
      · exact Or.inl (by simp [akeys_cons, h'])
      · rcases ih h' with h'' | h''
        · exact Or.inl (by simp only [akeys_cons, List.mem_cons]; exact Or.inr h'')
        · exact Or.inr h''

theorem mem_akeys_aerase {α : Type} (l : List (Nat × α)) (k t : Nat)
    (h : t ∈ akeys (aerase l k)) : t ∈ akeys l := by
  induction l with
  | nil => simpa [aerase] using h
  | cons p rest ih =>
    obtain ⟨a, b⟩ := p
    by_cases hp : a = k
    · have h' : t ∈ akeys rest := by simpa only [aerase, hp, if_true] using h
      simp only [akeys_cons, List.mem_cons]
      exact Or.inr h'
    · have h' : t = a ∨ t ∈ akeys (aerase rest k) := by
        simpa only [aerase, hp, if_false, akeys_cons, List.mem_cons] using h
      simp only [akeys_cons, List.mem_cons]
      rcases h' with h' | h'
      · exact Or.inl h'
      · exact Or.inr (ih h')

theorem nodupKeys_aset {α : Type} (l : List (Nat × α)) (k : Nat) (v : α)
    (h : nodupKeys l) : nodupKeys (aset l k v) := by
  induction l with
  | nil => simp [aset, nodupKeys, akeys]
  | cons p rest ih =>
    obtain ⟨a, b⟩ := p
    simp only [nodupKeys, akeys_cons, List.nodup_cons] at h
    by_cases hp : a = k
    · simp only [nodupKeys, aset, hp, if_true, akeys_cons, List.nodup_cons]
      exact hp ▸ h
    · simp only [nodupKeys, aset, hp, if_false, akeys_cons, List.nodup_cons]
      refine ⟨fun hm => ?_, ih h.2⟩
      rcases mem_akeys_aset rest k a v hm with h' | h'
      · exact h.1 h'
      · exact hp h'

theorem nodupKeys_aerase {α : Type} (l : List (Nat × α)) (k : Nat)
    (h : nodupKeys l) : nodupKeys (aerase l k) := by
  induction l with
  | nil => simp [aerase, nodupKeys, akeys]
  | cons p rest ih =>
    obtain ⟨a, b⟩ := p
    simp only [nodupKeys, akeys_cons, List.nodup_cons] at h
    by_cases hp : a = k
    · simpa only [nodupKeys, aerase, hp, if_true] using h.2
    · simp only [nodupKeys, aerase, hp, if_false, akeys_cons, List.nodup_cons]
      exact ⟨fun hm => h.1 (mem_akeys_aerase rest k a hm), ih h.2⟩

theorem alookup_aerase_self {α : Type} (l : List (Nat × α)) (k : Nat)
    (h : nodupKeys l) : alookup (aerase l k) k = none := by
  induction l with
  | nil => simp [aerase, alookup]
  | cons p rest ih =>
    obtain ⟨a, b⟩ := p
    simp only [nodupKeys, akeys_cons, List.nodup_cons] at h
    by_cases hp : a = k
    · subst hp
      simp only [aerase, if_true]
      exact (alookup_eq_none_iff rest a).2 h.1
    · simp only [aerase, hp, if_false, alookup]
      exact ih h.2

theorem aerase_aset_self {α : Type} (l : List (Nat × α)) (k : Nat) (v : α) :
    aerase (aset l k v) k = aerase l k := by
  induction l with
  | nil => simp [aset, aerase]
  | cons p rest ih =>
    by_cases hp : p.1 = k
    · simp [aset, aerase, hp]
    · simp [aset, aerase, hp, ih]

theorem aset_ne_nil {α : Type} (l : List (Nat × α)) (k : Nat) (v : α) :
    aset l k v ≠ [] := by
  cases l with
  | nil => simp [aset]
  | cons p rest =>
    by_cases hp : p.1 = k <;> simp [aset, hp]

theorem all_aset {α : Type} (P : Nat × α → Bool) (l : List (Nat × α)) (k : Nat)
    (v : α) (hl : l.all P = true) (hv : P (k, v) = true) :
    (aset l k v).all P = true := by
  induction l with
  | nil => simpa [aset] using hv
  | cons p rest ih =>
    simp at hl
    by_cases hp : p.1 = k
    · subst hp
      simp [aset]
      exact ⟨hv, by simpa using hl.2⟩
    · simp [aset, hp]
      exact ⟨hl.1, by simpa using ih (by simpa using hl.2)⟩

theorem all_aerase {α : Type} (P : Nat × α → Bool) (l : List (Nat × α)) (k : Nat)
    (hl : l.all P = true) : (aerase l k).all P = true := by
  induction l with
  | nil => simp [aerase]
  | cons p rest ih =>
    simp at hl
    by_cases hp : p.1 = k
    · simp [aerase, hp]
      simpa using hl.2
    · simp [aerase, hp]
      exact ⟨hl.1, by simpa using ih (by simpa using hl.2)⟩

theorem alookup_all {α : Type} (P : Nat × α → Bool) (l : List (Nat × α))
    (k : Nat) (v : α) (hl : l.all P = true) (h : alookup l k = some v) :
    P (k, v) = true := by
  induction l with
  | nil => simp [alookup] at h
  | cons p rest ih =>
    simp at hl
    by_cases hp : p.1 = k
    · simp [alookup, hp] at h
      subst h
      have : P (p.1, p.2) = true := hl.1
      simpa [hp] using this
    · simp [alookup, hp] at h
      exact ih (by simpa using hl.2) h

/-! ## Key-event modifier decoding (claim C6) -/

theorem and_127_eq_mod (s : Nat) : s &&& 127 = s % 128 := by
  have h := Nat.and_pow_two_sub_one_eq_mod s 7
  norm_num at h
  exact h

theorem and_reduce_mod128 (s m : Nat) (hm : 127 &&& m = m) :
    s &&& m = s % 128 &&& m := by
  conv_lhs => rw [← hm, ← Nat.and_assoc, and_127_eq_mod]

/-- The fold over `__KEY_MODIFIERS` only inspects the low seven bits of
the raw state. -/
theorem get_modifiers_keycode_mod (detail s : Nat) :
    KeyEvent.get_modifiers_keycode detail s =
      KeyEvent.get_modifiers_keycode detail (s % 128) := by
  unfold KeyEvent.get_modifiers_keycode KEY_MODIFIERS
  simp only [List.foldl]
  rw [and_reduce_mod128 s X.ShiftMask rfl, and_reduce_mod128 s X.ControlMask rfl,
    and_reduce_mod128 s X.Mod1Mask rfl, and_reduce_mod128 s X.Mod4Mask rfl]

theorem get_modifiers_keycode_lt (detail : Nat) :
    ∀ s < 128, KeyEvent.get_modifiers_keycode detail s =
      (if s &&& 77 = 0 then X.AnyModifier else s &&& 77, detail) := by
  have : ∀ s < 128, (KeyEvent.get_modifiers_keycode 0 s).1 =
      (if s &&& 77 = 0 then X.AnyModifier else s &&& 77) := by decide
  intro s hs
  have h1 := this s hs
  unfold KeyEvent.get_modifiers_keycode at h1 ⊢
  simp only at h1 ⊢
  rw [h1]

/-- C6: for every raw key event, the decoded modifiers value keeps
exactly the shift, control, Mod1 and Mod4 bits of the raw state
(`state &&& 77`), and when no tracked bit is present the value is the
`X.AnyModifier` sentinel instead of zero.  The keycode is `event.detail`
unchanged. -/
theorem claim_C6 (state detail : Nat) :
    KeyEvent.get_modifiers_keycode detail state =
      (if state &&& (X.ShiftMask ||| X.ControlMask ||| X.Mod1Mask ||| X.Mod4Mask) = 0
       then X.AnyModifier
       else state &&& (X.ShiftMask ||| X.ControlMask ||| X.Mod1Mask ||| X.Mod4Mask),
       detail) := by
  have hmask : X.ShiftMask ||| X.ControlMask ||| X.Mod1Mask ||| X.Mod4Mask = 77 := rfl
  rw [hmask, get_modifiers_keycode_mod, and_reduce_mod128 state 77 rfl]
  exact get_modifiers_keycode_lt detail (state % 128) (Nat.mod_lt _ (by norm_num))

/-! ## Create-notify override filtering (claim C7) -/

/-- C7: a raw create-notify event delivered to a registered
`CreateNotifyHandler` never reaches the `create` callback when its
override flag is set, and reaches it (with the decoded event) when the
flag is clear and a callback function was supplied. -/
theorem claim_C7 (create_cb : Bool) (raw : RawCreateEvent)
    (ht : raw.type = X.CreateNotify) :
    (raw.override = true →
      Core.CreateNotifyHandler.handle_event create_cb raw = .ok none)
    ∧ (raw.override = false → create_cb = true →
      Core.CreateNotifyHandler.handle_event create_cb raw =
        .ok (some (CreateNotifyEventV.ofRaw raw))) := by
  constructor
  · intro hov
    simp [Core.CreateNotifyHandler.handle_event, ht,
      Core.CreateNotifyHandler.create, CreateNotifyEventV.ofRaw, hov]
  · intro hov hcb
    simp [Core.CreateNotifyHandler.handle_event, ht,
      Core.CreateNotifyHandler.create, CreateNotifyEventV.ofRaw, hov, hcb]

/-- Witness for C7 at a concrete raw event. -/
theorem claim_C7_witness :
    Core.CreateNotifyHandler.handle_event true ⟨16, 7, 1, 0, true⟩ = .ok none
    ∧ Core.CreateNotifyHandler.handle_event true ⟨16, 7, 1, 0, false⟩ =
        .ok (some (CreateNotifyEventV.ofRaw ⟨16, 7, 1, 0, false⟩)) :=
  ⟨(claim_C7 true ⟨16, 7, 1, 0, true⟩ rfl).1 rfl,
   (claim_C7 true ⟨16, 7, 1, 0, false⟩ rfl).2 rfl rfl⟩

/-! ## KeyHandler gating (claim C10) -/

/-- C10: in the `pywo/core` variant, the `key_press` (resp. `key_release`)
user callback fires on a decoded key event exactly when the callback was
supplied and `(event.modifiers, event.keycode)` is a member of the
handler's `keys` list; otherwise the event is silently dropped even
though the event kind matched the handler's mapping. -/
theorem claim_C10 (kh : Core.KeyHandler) (raw : RawKeyEvent) :
    (raw.type = X.KeyPress →
      Core.KeyHandler.handle_event kh raw =
        .ok (if kh.key_press_cb = true ∧
               ((KeyEventV.ofRaw raw).modifiers, (KeyEventV.ofRaw raw).keycode) ∈ kh.keys
             then some (.press, KeyEventV.ofRaw raw) else none))
    ∧ (raw.type = X.KeyRelease →
      Core.KeyHandler.handle_event kh raw =
        .ok (if kh.key_release_cb = true ∧
               ((KeyEventV.ofRaw raw).modifiers, (KeyEventV.ofRaw raw).keycode) ∈ kh.keys
             then some (.release, KeyEventV.ofRaw raw) else none)) := by
  constructor
  · intro ht
    simp only [Core.KeyHandler.handle_event, ht, if_pos rfl]
    unfold Core.KeyHandler.key_press
    by_cases hcb : kh.key_press_cb = true ∧
        ((KeyEventV.ofRaw raw).modifiers, (KeyEventV.ofRaw raw).keycode) ∈ kh.keys
    · simp [hcb.1, hcb.2]
    · rw [if_neg hcb]
      rw [Decidable.not_and_iff_or_not] at hcb
      rcases hcb with hcb | hcb
      · simp [hcb]
      · simp [hcb]
  · intro ht
    simp only [Core.KeyHandler.handle_event, ht]
    rw [if_neg (by decide : ¬ (X.KeyRelease = X.KeyPress))]
    simp only [if_true]
    unfold Core.KeyHandler.key_release
    by_cases hcb : kh.key_release_cb = true ∧
        ((KeyEventV.ofRaw raw).modifiers, (KeyEventV.ofRaw raw).keycode) ∈ kh.keys
    · simp [hcb.1, hcb.2]
    · rw [if_neg hcb]
      rw [Decidable.not_and_iff_or_not] at hcb
      rcases hcb with hcb | hcb
      · simp [hcb]
      · simp [hcb]

/-- Witness for C10: a key press whose normalized pair is in `keys` fires
the callback; shifting the modifier out of `keys` drops it. -/
theorem claim_C10_witness :
    Core.KeyHandler.handle_event ⟨true, false, [(1, 38)], 0, 0⟩ ⟨2, 7, 38, 1⟩ =
      .ok (some (.press, KeyEventV.ofRaw ⟨2, 7, 38, 1⟩))
    ∧ Core.KeyHandler.handle_event ⟨true, false, [(1, 38)], 0, 0⟩ ⟨2, 7, 38, 4⟩ =
      .ok none := by
  constructor
  · rw [(claim_C10 ⟨true, false, [(1, 38)], 0, 0⟩ ⟨2, 7, 38, 1⟩).1 rfl]
    rfl
  · rw [(claim_C10 ⟨true, false, [(1, 38)], 0, 0⟩ ⟨2, 7, 38, 4⟩).1 rfl]
    rfl

/-! ## The two ConfigureNotifyHandler variants (claim C9) -/

/-- C9: the trunk variant of `ConfigureNotifyHandler` keys its
`configure` callback under the property-notify kind, the `pywo/core`
variant under the configure-notify kind, so their `types()` sets
differ — the two embeddings are not equivalent. -/
theorem claim_C9 :
    Trunk.ConfigureNotifyHandler.types = [X.PropertyNotify]
    ∧ Core.ConfigureNotifyHandler.types = [X.ConfigureNotify]
    ∧ Trunk.ConfigureNotifyHandler.types.toFinset ≠
        Core.ConfigureNotifyHandler.types.toFinset := by
  refine ⟨rfl, rfl, ?_⟩
  decide

/-! ## Dispatch-loop lemmas (claims C1, C4, C8) -/

namespace EventDispatcher

/-- When every handler of the list covers the event's type and none of
their callbacks raises, the loop invokes all of them in list order. -/
theorem invokeHandlers_ok (raises : Nat → RawEvent → Bool) (ev : RawEvent)
    (l : List Handler)
    (hl : ∀ g ∈ l, ev.type ∈ g.types ∧ raises g.hid ev = false) :
    invokeHandlers raises ev l = (l.map Handler.hid, false) := by
  induction l with
  | nil => rfl
  | cons g rest ih =>
    obtain ⟨hg1, hg2⟩ := hl g (List.mem_cons_self g rest)
    simp [invokeHandlers, hg1, hg2, ih fun g' hg' => hl g' (List.mem_cons_of_mem g hg')]

/-- When the first raising handler is reached, the loop stops there: the
handlers before it ran, the raising one ran and raised, and the ones
after it never run. -/
theorem invokeHandlers_raise (raises : Nat → RawEvent → Bool) (ev : RawEvent)
    (pre post : List Handler) (hbad : Handler)
    (hpre : ∀ g ∈ pre, ev.type ∈ g.types ∧ raises g.hid ev = false)
    (hbt : ev.type ∈ hbad.types) (hbr : raises hbad.hid ev = true) :
    invokeHandlers raises ev (pre ++ hbad :: post) =
      (pre.map Handler.hid ++ [hbad.hid], true) := by
  induction pre with
  | nil => simp [invokeHandlers, hbt, hbr]
  | cons g rest ih =>
    obtain ⟨hg1, hg2⟩ := hpre g (List.mem_cons_self g rest)
    simp [invokeHandlers, hg1, hg2, ih fun g' hg' => hpre g' (List.mem_cons_of_mem g hg')]

end EventDispatcher

/-- C1 counterexample: two handlers registered for the same window and
kind; the first one's callback raises.  `__dispatch` has no
`try`/`except`, so the exception escapes (`true` flag), the second
handler is never invoked (trace is `[1]`, not `[1, 2]`), and the pump
thread dies (`drain` is `none`) — refuting the claim that handler
exceptions are caught, logged and contained per handler invocation. -/
theorem claim_C1_counterexample :
    EventDispatcher.dispatch (fun hid _ => hid == 1)
        [(1, [(5, [⟨1, [5], []⟩, ⟨2, [5], []⟩])])] 99 ⟨some 1, none, 5⟩
      = .delivered [1] true
    ∧ EventDispatcher.drain (fun hid _ => hid == 1)
        [(1, [(5, [⟨1, [5], []⟩, ⟨2, [5], []⟩])])] 99 [⟨some 1, none, 5⟩]
      = none :=
  ⟨rfl, rfl⟩

/-- C1 (amended): an exception raised by one handler's `handle_event`
callback propagates uncaught out of `__dispatch`: the handlers before the
raising one in the same `(window, kind)` round run, the handlers after it
are never invoked, and the pump loop terminates with the exception (the
drain of the pending queue dies). -/
theorem claim_C1 (raises : Nat → RawEvent → Bool) (st : Registry) (root : Nat)
    (ev : RawEvent) (rest : List RawEvent) (wh : KindMap)
    (pre post : List Handler) (hbad : Handler)
    (hres : EventDispatcher.resolve st root ev = some wh)
    (htl : alookup wh ev.type = some (pre ++ hbad :: post))
    (hpre : ∀ g ∈ pre, ev.type ∈ g.types ∧ raises g.hid ev = false)
    (hbt : ev.type ∈ hbad.types) (hbr : raises hbad.hid ev = true) :
    EventDispatcher.dispatch raises st root ev
      = .delivered (pre.map Handler.hid ++ [hbad.hid]) true
    ∧ EventDispatcher.drain raises st root (ev :: rest) = none := by
  have hd : EventDispatcher.dispatch raises st root ev
      = .delivered (pre.map Handler.hid ++ [hbad.hid]) true := by
    simp only [EventDispatcher.dispatch, hres, htl]
    rw [EventDispatcher.invokeHandlers_raise raises ev pre post hbad hpre hbt hbr]
  refine ⟨hd, ?_⟩
  simp only [EventDispatcher.drain, hd]
  rfl

/-- Witness for C1 (amended) at a concrete registry: handler 2 raises,
handler 1 before it runs, handler 3 after it never runs. -/
theorem claim_C1_witness :
    EventDispatcher.dispatch (fun hid _ => hid == 2)
        [(1, [(5, [⟨1, [5], []⟩, ⟨2, [5], []⟩, ⟨3, [5], []⟩])])] 99
        ⟨some 1, none, 5⟩
      = .delivered [1, 2] true
    ∧ EventDispatcher.drain (fun hid _ => hid == 2)
        [(1, [(5, [⟨1, [5], []⟩, ⟨2, [5], []⟩, ⟨3, [5], []⟩])])] 99
        [⟨some 1, none, 5⟩]
      = none :=
  claim_C1 (fun hid _ => hid == 2)
    [(1, [(5, [⟨1, [5], []⟩, ⟨2, [5], []⟩, ⟨3, [5], []⟩])])] 99
    ⟨some 1, none, 5⟩ [] [(5, [⟨1, [5], []⟩, ⟨2, [5], []⟩, ⟨3, [5], []⟩])]
    [⟨1, [5], []⟩] [⟨3, [5], []⟩] ⟨2, [5], []⟩
    rfl rfl (by decide) (by decide) rfl

/-- C4: `__dispatch` resolves the target window in the order — window the
event is reported on, window it is reported for, root window — each step
applying only when that window id has registered handlers; when none of
the three is registered the event is logged and dropped and the pump
continues; when the resolved window has no handler list for the event's
type the event is silently dropped and the pump continues. -/
theorem claim_C4 (raises : Nat → RawEvent → Bool) (st : Registry) (root : Nat)
    (ev : RawEvent) :
    (∀ w wh, ev.window = some w → alookup st w = some wh →
      EventDispatcher.resolve st root ev = some wh)
    ∧ (∀ e wh, ev.window.bind (alookup st) = none → ev.event = some e →
      alookup st e = some wh → EventDispatcher.resolve st root ev = some wh)
    ∧ (ev.window.bind (alookup st) = none → ev.event.bind (alookup st) = none →
      EventDispatcher.resolve st root ev = alookup st root)
    ∧ (EventDispatcher.resolve st root ev = none →
      EventDispatcher.dispatch raises st root ev = .noWindow
      ∧ EventDispatcher.drain raises st root [ev] = some [.noWindow])
    ∧ (∀ wh, EventDispatcher.resolve st root ev = some wh →
      alookup wh ev.type = none →
      EventDispatcher.dispatch raises st root ev = .skippedType
      ∧ EventDispatcher.drain raises st root [ev] = some [.skippedType]) := by
  refine ⟨?_, ?_, ?_, ?_, ?_⟩
  · intro w wh hw hlook
    unfold EventDispatcher.resolve
    rw [hw]
    simp [hlook]
  · intro e wh hwn he hlook
    unfold EventDispatcher.resolve
    rw [hwn, he]
    simp [hlook]
  · intro hwn hen
    unfold EventDispatcher.resolve
    rw [hwn, hen]
  · intro hres
    have hd : EventDispatcher.dispatch raises st root ev = .noWindow := by
      simp only [EventDispatcher.dispatch, hres]
    exact ⟨hd, by simp [EventDispatcher.drain, hd, EventDispatcher.excOf]⟩
  · intro wh hres htl
    have hd : EventDispatcher.dispatch raises st root ev = .skippedType := by
      simp only [EventDispatcher.dispatch, hres, htl]
    exact ⟨hd, by simp [EventDispatcher.drain, hd, EventDispatcher.excOf]⟩

/-- Witness for C4 at concrete registries: resolution prefers the
`window` field, falls back to the `event` field, then to the root, and
the two drop outcomes leave the pump alive. -/
theorem claim_C4_witness :
    EventDispatcher.resolve [(1, [(5, [⟨1, [5], [2]⟩])])] 99 ⟨some 1, some 3, 5⟩
      = some [(5, [⟨1, [5], [2]⟩])]
    ∧ EventDispatcher.resolve [(3, [(5, [⟨1, [5], [2]⟩])])] 99 ⟨some 1, some 3, 5⟩
      = some [(5, [⟨1, [5], [2]⟩])]
    ∧ EventDispatcher.resolve [(99, [(5, [⟨1, [5], [2]⟩])])] 99 ⟨some 1, some 3, 5⟩
      = alookup [(99, [(5, [⟨1, [5], [2]⟩])])] 99
    ∧ EventDispatcher.dispatch (fun _ _ => false) [] 99 ⟨some 1, some 3, 5⟩
      = .noWindow
    ∧ EventDispatcher.drain (fun _ _ => false) [] 99 [⟨some 1, some 3, 5⟩]
      = some [.noWindow]
    ∧ EventDispatcher.dispatch (fun _ _ => false) [(1, [(5, [⟨1, [5], [2]⟩])])] 99
        ⟨some 1, none, 6⟩ = .skippedType
    ∧ EventDispatcher.drain (fun _ _ => false) [(1, [(5, [⟨1, [5], [2]⟩])])] 99
        [⟨some 1, none, 6⟩] = some [.skippedType] := by
  refine ⟨?_, ?_, ?_, ?_, ?_, ?_, ?_⟩
  · exact (claim_C4 (fun _ _ => false) [(1, [(5, [⟨1, [5], [2]⟩])])] 99
      ⟨some 1, some 3, 5⟩).1 1 [(5, [⟨1, [5], [2]⟩])] rfl rfl
  · exact (claim_C4 (fun _ _ => false) [(3, [(5, [⟨1, [5], [2]⟩])])] 99
      ⟨some 1, some 3, 5⟩).2.1 3 [(5, [⟨1, [5], [2]⟩])] rfl rfl rfl
  · exact (claim_C4 (fun _ _ => false) [(99, [(5, [⟨1, [5], [2]⟩])])] 99
      ⟨some 1, some 3, 5⟩).2.2.1 rfl rfl
  · exact ((claim_C4 (fun _ _ => false) [] 99 ⟨some 1, some 3, 5⟩).2.2.2.1 rfl).1
  · exact ((claim_C4 (fun _ _ => false) [] 99 ⟨some 1, some 3, 5⟩).2.2.2.1 rfl).2
  · exact ((claim_C4 (fun _ _ => false) [(1, [(5, [⟨1, [5], [2]⟩])])] 99
      ⟨some 1, none, 6⟩).2.2.2.2 [(5, [⟨1, [5], [2]⟩])] rfl rfl).1
  · exact ((claim_C4 (fun _ _ => false) [(1, [(5, [⟨1, [5], [2]⟩])])] 99
      ⟨some 1, none, 6⟩).2.2.2.2 [(5, [⟨1, [5], [2]⟩])] rfl rfl).2

/-! ## Pump lifecycle (claim C5) -/

theorem unregister_nil (w : Option Nat) (h : Option Handler) :
    (EventDispatcher.unregister [] w h).1 = [] := by
  cases w <;> rfl

/-- Every atomic step preserves the invariant "a nonempty registry means
the pump thread is alive". -/
theorem stepOp_alive (s : DState) (op : Op)
    (h : s.handlers ≠ [] → s.threadAlive = true) :
    (stepOp s op).handlers ≠ [] → (stepOp s op).threadAlive = true := by
  cases op with
  | reg w hh => intro _; rfl
  | unreg w ho =>
    intro hne
    by_cases hs : s.handlers = []
    · exfalso
      apply hne
      show (EventDispatcher.unregister s.handlers w ho).1 = []
      rw [hs]
      exact unregister_nil w ho
    · exact h hs
  | pumpCheck =>
    intro hne
    by_cases he : s.handlers.isEmpty
    · exfalso
      apply hne
      have : (stepOp s .pumpCheck).handlers = s.handlers := by
        simp [stepOp, he]
      rw [this]
      exact List.isEmpty_iff.mp he
    · have hs : stepOp s .pumpCheck = s := by simp [stepOp, he]
      rw [hs] at hne ⊢
      exact h hne

theorem foldl_stepOp_alive (ops : List Op) :
    ∀ s : DState, (s.handlers ≠ [] → s.threadAlive = true) →
      ((ops.foldl stepOp s).handlers ≠ [] → (ops.foldl stepOp s).threadAlive = true) := by
  induction ops with
  | nil => exact fun s h => h
  | cons op rest ih =>
    intro s h
    exact ih (stepOp s op) (stepOp_alive s op h)

/-- C5: over every interleaving of register / unregister calls and pump
guard checks from a fresh dispatcher — a nonempty registry implies the
pump thread is alive; one more guard check leaves the thread alive
exactly when a registration exists (so Running and "a registration
exists" agree with at most one cycle of lag); and a register call always
leaves a pump thread alive. -/
theorem claim_C5 (ops : List Op) :
    ((runOps ops).handlers ≠ [] → (runOps ops).threadAlive = true)
    ∧ ((stepOp (runOps ops) .pumpCheck).threadAlive = true ↔
        (runOps ops).handlers ≠ [])
    ∧ (∀ w h, (stepOp (runOps ops) (.reg w h)).threadAlive = true) := by
  have hinv : (runOps ops).handlers ≠ [] → (runOps ops).threadAlive = true :=
    foldl_stepOp_alive ops initState (fun hne => absurd rfl hne)
  refine ⟨hinv, ?_, fun w h => rfl⟩
  by_cases he : (runOps ops).handlers.isEmpty
  · constructor
    · intro hal
      exfalso
      have : (stepOp (runOps ops) .pumpCheck).threadAlive = false := by
        simp [stepOp, he]
      rw [this] at hal
      exact Bool.false_ne_true hal
    · intro hne
      exact absurd (List.isEmpty_iff.mp he) hne
  · have hne : (runOps ops).handlers ≠ [] := by
      simpa using (List.isEmpty_eq_false.mp (Bool.eq_false_iff.mpr he))
    constructor
    · intro _
      exact hne
    · intro _
      have hs : stepOp (runOps ops) .pumpCheck = runOps ops := by
        simp [stepOp, he]
      rw [hs]
      exact hinv hne

/-- Witness for C5: after one concrete register the pump is alive; after
unregistering everything, the next guard check stops it. -/
theorem claim_C5_witness :
    (runOps [.reg 1 ⟨1, [5], [2]⟩]).threadAlive = true
    ∧ ¬ ((stepOp (runOps [.reg 1 ⟨1, [5], [2]⟩, .unreg none none]) .pumpCheck).threadAlive
          = true) := by
  constructor
  · exact (claim_C5 [.reg 1 ⟨1, [5], [2]⟩]).1 (by decide)
  · intro hal
    exact ((claim_C5 [.reg 1 ⟨1, [5], [2]⟩, .unreg none none]).2.1.mp hal) (by decide)

/-! ## Registry pruning invariant (claim C2) -/

/-- C2 counterexample: registering a handler whose `types` set is empty
(an `EventHandler` constructed with an empty mapping) leaves the window
entry `{1: {}}` in the registry — a window entry with an empty kind map,
refuting the claim for arbitrary register/unregister sequences. -/
theorem claim_C2_counterexample :
    (runOps [.reg 1 ⟨0, [], []⟩]).handlers = [(1, [])]
    ∧ wellPruned (runOps [.reg 1 ⟨0, [], []⟩]).handlers = false :=
  ⟨rfl, rfl⟩

theorem regStep_all (h : Handler) (wh : KindMap) (t : Nat)
    (hw : wh.all (fun q => !q.2.isEmpty) = true) :
    (EventDispatcher.regStep h wh t).all (fun q => !q.2.isEmpty) = true := by
  apply all_aset _ _ _ _ hw
  simp [EventDispatcher.kindList]

theorem foldl_regStep_all (h : Handler) (ts : List Nat) :
    ∀ wh : KindMap, wh.all (fun q => !q.2.isEmpty) = true →
      (ts.foldl (EventDispatcher.regStep h) wh).all (fun q => !q.2.isEmpty) = true := by
  induction ts with
  | nil => exact fun wh hw => hw
  | cons t rest ih =>
    intro wh hw
    exact ih _ (regStep_all h wh t hw)

theorem foldl_regStep_ne_nil (h : Handler) (ts : List Nat) :
    ∀ wh : KindMap, (ts ≠ [] ∨ wh ≠ []) →
      ts.foldl (EventDispatcher.regStep h) wh ≠ [] := by
  induction ts with
  | nil =>
    intro wh hne
    rcases hne with hne | hne
    · exact absurd rfl hne
    · exact hne
  | cons t rest ih =>
    intro wh _
    exact ih _ (Or.inr (aset_ne_nil _ _ _))

theorem unregStep_all (h : Handler) (wh : KindMap) (t : Nat)
    (hw : wh.all (fun q => !q.2.isEmpty) = true) :
    (EventDispatcher.unregStep h wh t).all (fun q => !q.2.isEmpty) = true := by
  unfold EventDispatcher.unregStep
  by_cases he : (if h ∈ EventDispatcher.kindList wh t
      then (EventDispatcher.kindList wh t).erase h
      else EventDispatcher.kindList wh t).isEmpty
  · simp only [he, if_true]
    exact all_aerase _ wh t hw
  · simp only [he, if_false]
    apply all_aset _ _ _ _ hw
    simp only [Bool.not_eq_true] at he
    simp [he]

theorem foldl_unregStep_all (h : Handler) (ts : List Nat) :
    ∀ wh : KindMap, wh.all (fun q => !q.2.isEmpty) = true →
      (ts.foldl (EventDispatcher.unregStep h) wh).all (fun q => !q.2.isEmpty) = true := by
  induction ts with
  | nil => exact fun wh hw => hw
  | cons t rest ih =>
    intro wh hw
    exact ih _ (unregStep_all h wh t hw)

theorem register_wellPruned (st : Registry) (w : Nat) (h : Handler)
    (hst : wellPruned st = true) (hts : h.types ≠ []) :
    wellPruned (EventDispatcher.register st w h).1 = true := by
  have hbase : ((alookup st w).getD []).all (fun q => !q.2.isEmpty) = true := by
    cases hlk : alookup st w with
    | none => rfl
    | some wh0 =>
      have hp := alookup_all _ st w wh0 hst hlk
      simp only [Bool.and_eq_true] at hp
      simpa using hp.2
  have hall := foldl_regStep_all h h.types _ hbase
  have hne := foldl_regStep_ne_nil h h.types ((alookup st w).getD []) (Or.inl hts)
  show (aset st w (h.types.foldl (EventDispatcher.regStep h)
      ((alookup st w).getD []))).all _ = true
  apply all_aset _ _ _ _ hst
  simp only [Bool.and_eq_true, Bool.not_eq_true']
  exact ⟨List.isEmpty_eq_false.mpr hne, hall⟩

theorem pruneWindow_wellPruned (st : Registry) (wid : Nat)
    (hst : wellPruned st = true) :
    wellPruned (EventDispatcher.pruneWindow st wid) = true := by
  unfold EventDispatcher.pruneWindow
  cases hlk : alookup st wid with
  | none => exact hst
  | some wh =>
    by_cases he : wh.isEmpty
    · simp only [he, if_true]
      exact all_aerase _ st wid hst
    · simp only [he, if_false]
      exact hst

theorem unregister_wellPruned (st : Registry) (w : Option Nat)
    (ho : Option Handler) (hst : wellPruned st = true) :
    wellPruned (EventDispatcher.unregister st w ho).1 = true := by
  cases w with
  | none => rfl
  | some wid =>
    show wellPruned (EventDispatcher.pruneWindow
      (EventDispatcher.unregisterCore st wid ho) wid) = true
    unfold EventDispatcher.unregisterCore
    cases hlk : alookup st wid with
    | none => exact pruneWindow_wellPruned st wid hst
    | some wh0 =>
      cases ho with
      | none => exact pruneWindow_wellPruned _ wid (all_aerase _ st wid hst)
      | some hh =>
        have hbase : wh0.all (fun q => !q.2.isEmpty) = true := by
          have hp := alookup_all _ st wid wh0 hst hlk
          simp only [Bool.and_eq_true] at hp
          simpa using hp.2
        have hall := foldl_unregStep_all hh hh.types wh0 hbase
        set wh2 := hh.types.foldl (EventDispatcher.unregStep hh) wh0 with hwh2
        unfold EventDispatcher.pruneWindow
        rw [alookup_aset_self st wid wh2]
        by_cases he : wh2.isEmpty
        · simp only [he, if_true]
          rw [aerase_aset_self]
          exact all_aerase _ st wid hst
        · simp only [he, if_false]
          apply all_aset _ _ _ _ hst
          simp only [Bool.and_eq_true, Bool.not_eq_true']
          exact ⟨Bool.eq_false_iff.mpr he, hall⟩

theorem stepOp_wellPruned (s : DState) (op : Op)
    (hs : wellPruned s.handlers = true) (hop : opTypesNonempty op) :
    wellPruned (stepOp s op).handlers = true := by
  cases op with
  | reg w h => exact register_wellPruned s.handlers w h hs hop
  | unreg w ho => exact unregister_wellPruned s.handlers w ho hs
  | pumpCheck =>
    by_cases he : s.handlers.isEmpty <;> simp [stepOp, he, hs]

theorem foldl_stepOp_wellPruned (ops : List Op) :
    ∀ s : DState, wellPruned s.handlers = true →
      (∀ op ∈ ops, opTypesNonempty op) →
      wellPruned ((ops.foldl stepOp s).handlers) = true := by
  induction ops with
  | nil => exact fun s hs _ => hs
  | cons op rest ih =>
    intro s hs hops
    exact ih (stepOp s op)
      (stepOp_wellPruned s op hs (hops op (List.mem_cons_self op rest)))
      (fun op' hop' => hops op' (List.mem_cons_of_mem op hop'))

/-- C2 (amended): for every sequence of register / unregister calls from
an empty registry in which every registered handler declares at least one
event type (as every `EventHandler` subclass in the repository does), the
registry never holds a window entry with an empty kind map nor a kind
entry with an empty handler list. -/
theorem claim_C2 (ops : List Op) (hops : ∀ op ∈ ops, opTypesNonempty op) :
    wellPruned (runOps ops).handlers = true :=
  foldl_stepOp_wellPruned ops initState rfl hops

/-- Witness for C2 (amended) on a concrete call sequence. -/
theorem claim_C2_witness :
    wellPruned (runOps [.reg 1 ⟨1, [5, 7], [2]⟩, .reg 1 ⟨2, [5], [4]⟩,
      .unreg (some 1) (some ⟨1, [5, 7], [2]⟩)]).handlers = true := by
  apply claim_C2
  intro op hop
  rcases hop with _ | ⟨_, hop⟩
  · exact (by decide : (⟨1, [5, 7], [2]⟩ : Handler).types ≠ [])
  · rcases hop with _ | ⟨_, hop⟩
    · exact (by decide : (⟨2, [5], [4]⟩ : Handler).types ≠ [])
    · rcases hop with _ | ⟨_, hop⟩
      · trivial
      · cases hop

/-! ## Registration order and delivery order (claim C8) -/

theorem kindList_regStep_self (h : Handler) (wh : KindMap) (t : Nat) :
    EventDispatcher.kindList (EventDispatcher.regStep h wh t) t =
      EventDispatcher.kindList wh t ++ [h] := by
  unfold EventDispatcher.kindList EventDispatcher.regStep
  rw [alookup_aset_self]
  rfl

theorem kindList_regStep_ne (h : Handler) (wh : KindMap) (t t' : Nat)
    (hne : t' ≠ t) :
    EventDispatcher.kindList (EventDispatcher.regStep h wh t) t' =
      EventDispatcher.kindList wh t' := by
  unfold EventDispatcher.kindList EventDispatcher.regStep
  rw [alookup_aset_ne _ _ _ _ hne]

theorem kindList_foldl_regStep_not_mem (h : Handler) (ts : List Nat) :
    ∀ wh t, t ∉ ts →
      EventDispatcher.kindList (ts.foldl (EventDispatcher.regStep h) wh) t =
        EventDispatcher.kindList wh t := by
  induction ts with
  | nil => exact fun wh t _ => rfl
  | cons t0 rest ih =>
    intro wh t ht
    have h1 : t ∉ rest := fun hm => ht (List.mem_cons_of_mem t0 hm)
    have h2 : t ≠ t0 := fun he => ht (he ▸ List.mem_cons_self t0 rest)
    rw [List.foldl_cons, ih _ t h1, kindList_regStep_ne h wh t0 t h2]

theorem kindList_foldl_regStep_mem (h : Handler) (ts : List Nat) :
    ∀ wh t, ts.Nodup → t ∈ ts →
      EventDispatcher.kindList (ts.foldl (EventDispatcher.regStep h) wh) t =
        EventDispatcher.kindList wh t ++ [h] := by
  induction ts with
  | nil => exact fun wh t _ hm => absurd hm (List.not_mem_nil t)
  | cons t0 rest ih =>
    intro wh t hnd hm
    rw [List.nodup_cons] at hnd
    rw [List.foldl_cons]
    by_cases he : t = t0
    · subst he
      rw [kindList_foldl_regStep_not_mem h rest _ t hnd.1,
        kindList_regStep_self h wh t]
    · have hmr : t ∈ rest := by
        rcases List.mem_cons.mp hm with h' | h'
        · exact absurd h' he
        · exact h'
      rw [ih _ t hnd.2 hmr, kindList_regStep_ne h wh t0 t he]

theorem alookup_kindList_of_ne_nil (wh : KindMap) (t : Nat)
    (h : EventDispatcher.kindList wh t ≠ []) :
    alookup wh t = some (EventDispatcher.kindList wh t) := by
  unfold EventDispatcher.kindList at h ⊢
  cases hl : alookup wh t with
  | none =>
    rw [hl] at h
    exact absurd rfl h
  | some l => rfl

/-- C8: when `h1` and then `h2` are registered for the same window `w`
and both cover the event kind `k`, dispatching an event of kind `k`
reported on `w` invokes every previously registered handler for `(w, k)`
and then `h1` and then `h2` — delivery follows registration order
(assuming no callback in the round raises). -/
theorem claim_C8 (raises : Nat → RawEvent → Bool) (st : Registry) (root : Nat)
    (w k : Nat) (h1 h2 : Handler) (ev : RawEvent)
    (hw : ev.window = some w) (ht : ev.type = k)
    (h1k : k ∈ h1.types) (h2k : k ∈ h2.types)
    (h1nd : h1.types.Nodup) (h2nd : h2.types.Nodup)
    (hold : ∀ g ∈ EventDispatcher.kindList ((alookup st w).getD []) k,
      k ∈ g.types ∧ raises g.hid ev = false)
    (hr1 : raises h1.hid ev = false) (hr2 : raises h2.hid ev = false) :
    EventDispatcher.dispatch raises
        (EventDispatcher.register (EventDispatcher.register st w h1).1 w h2).1 root ev
      = .delivered
          ((EventDispatcher.kindList ((alookup st w).getD []) k).map Handler.hid
            ++ [h1.hid, h2.hid]) false := by
  set km_a := (alookup st w).getD [] with hkma
  set km_b := h1.types.foldl (EventDispatcher.regStep h1) km_a with hkmb
  set km_c := h2.types.foldl (EventDispatcher.regStep h2) km_b with hkmc
  have hst1 : (EventDispatcher.register st w h1).1 = aset st w km_b := rfl
  have hlk1 : alookup (aset st w km_b) w = some km_b := alookup_aset_self st w km_b
  have hst2 : (EventDispatcher.register (aset st w km_b) w h2).1
      = aset (aset st w km_b) w km_c := by
    show aset (aset st w km_b) w (h2.types.foldl (EventDispatcher.regStep h2)
        ((alookup (aset st w km_b) w).getD [])) = _
    rw [hlk1]
    rfl
  have hkbc : EventDispatcher.kindList km_c k =
      EventDispatcher.kindList km_b k ++ [h2] :=
    kindList_foldl_regStep_mem h2 h2.types km_b k h2nd h2k
  have hkab : EventDispatcher.kindList km_b k =
      EventDispatcher.kindList km_a k ++ [h1] :=
    kindList_foldl_regStep_mem h1 h1.types km_a k h1nd h1k
  have hlk2 : alookup (aset (aset st w km_b) w km_c) w = some km_c :=
    alookup_aset_self _ _ _
  have hres : EventDispatcher.resolve (aset (aset st w km_b) w km_c) root ev
      = some km_c := by
    unfold EventDispatcher.resolve
    rw [hw]
    simp [hlk2]
  have hkcne : EventDispatcher.kindList km_c k ≠ [] := by
    rw [hkbc]
    simp
  have htl : alookup km_c k = some (EventDispatcher.kindList km_c k) :=
    alookup_kindList_of_ne_nil km_c k hkcne
  have hcond : ∀ g ∈ EventDispatcher.kindList km_c k,
      ev.type ∈ g.types ∧ raises g.hid ev = false := by
    intro g hg
    rw [hkbc, hkab] at hg
    rcases List.mem_append.mp hg with hg | hg
    · rcases List.mem_append.mp hg with hg | hg
      · obtain ⟨hg1, hg2⟩ := hold g hg
        exact ⟨ht ▸ hg1, hg2⟩
      · rw [List.mem_singleton] at hg
        subst hg
        exact ⟨ht ▸ h1k, hr1⟩
    · rw [List.mem_singleton] at hg
      subst hg
      exact ⟨ht ▸ h2k, hr2⟩
  have hinv := EventDispatcher.invokeHandlers_ok raises ev
    (EventDispatcher.kindList km_c k) hcond
  rw [hst1, hst2]
  simp only [EventDispatcher.dispatch, hres, ht, htl, hinv]
  rw [hkbc, hkab]
  simp [List.map_append]

/-- Witness for C8: from an empty registry, register handler 1 then
handler 2 for window 1 and kind 5; a kind-5 event on window 1 is
delivered to both, in that order. -/
theorem claim_C8_witness :
    EventDispatcher.dispatch (fun _ _ => false)
        (EventDispatcher.register
          (EventDispatcher.register [] 1 ⟨1, [5], []⟩).1 1 ⟨2, [5], []⟩).1 0
        ⟨some 1, none, 5⟩
      = .delivered [1, 2] false := by
  have h := claim_C8 (fun _ _ => false) [] 0 1 5 ⟨1, [5], []⟩ ⟨2, [5], []⟩
    ⟨some 1, none, 5⟩ rfl rfl (by decide) (by decide) (by decide) (by decide)
    (fun g hg => absurd hg (List.not_mem_nil g)) rfl rfl
  simpa using h

/-! ## Composite-mask round trip (claim C3) -/

theorem maskOfList_eq_biUnion (l : List Handler) :
    EventDispatcher.maskOfList l =
      l.toFinset.biUnion (fun h => h.masks.toFinset) := by
  induction l with
  | nil => simp [EventDispatcher.maskOfList]
  | cons h t ih =>
    show h.masks.toFinset ∪ EventDispatcher.maskOfList t = _
    rw [List.toFinset_cons, Finset.biUnion_insert, ih]

theorem maskOfList_perm (l l' : List Handler) (h : List.Perm l l') :
    EventDispatcher.maskOfList l = EventDispatcher.maskOfList l' := by
  rw [maskOfList_eq_biUnion, maskOfList_eq_biUnion,
    List.toFinset_eq_of_perm l l' h]

theorem kindList_cons_self (k : Nat) (l : List Handler) (rest : KindMap) :
    EventDispatcher.kindList ((k, l) :: rest) k = l := by
  simp [EventDispatcher.kindList, alookup]

theorem kindList_cons_ne (k t : Nat) (l : List Handler) (rest : KindMap)
    (hne : t ≠ k) :
    EventDispatcher.kindList ((k, l) :: rest) t =
      EventDispatcher.kindList rest t := by
  have hk : ¬ k = t := fun e => hne e.symm
  simp [EventDispatcher.kindList, alookup, hk]

theorem kindList_eq_nil_of_not_mem (wh : KindMap) (t : Nat)
    (h : t ∉ akeys wh) : EventDispatcher.kindList wh t = [] := by
  unfold EventDispatcher.kindList
  rw [(alookup_eq_none_iff wh t).2 h]
  rfl

/-- With no duplicated keys, the mask union over one window's kind map
can be indexed by any finite key set covering its keys. -/
theorem windowMask_eq_biUnion (wh : KindMap) :
    ∀ K : Finset Nat, nodupKeys wh → (∀ t ∈ akeys wh, t ∈ K) →
      EventDispatcher.windowMask wh =
        K.biUnion (fun t => EventDispatcher.maskOfList (EventDispatcher.kindList wh t)) := by
  induction wh with
  | nil =>
    intro K _ _
    have hz : ∀ t ∈ K,
        EventDispatcher.maskOfList (EventDispatcher.kindList [] t) = ∅ :=
      fun t _ => rfl
    show (∅ : Finset Nat) = _
    symm
    apply Finset.eq_empty_of_forall_not_mem
    intro x hx
    rcases Finset.mem_biUnion.mp hx with ⟨t, htK, hxt⟩
    rw [hz t htK] at hxt
    exact absurd hxt (Finset.not_mem_empty x)
  | cons p rest ih =>
    obtain ⟨k0, l0⟩ := p
    intro K hn hK
    simp only [nodupKeys, akeys_cons, List.nodup_cons] at hn
    have hk0K : k0 ∈ K := hK k0 (List.mem_cons_self _ _)
    have hstep : EventDispatcher.windowMask ((k0, l0) :: rest) =
        EventDispatcher.maskOfList l0 ∪ EventDispatcher.windowMask rest := rfl
    rw [hstep, ← Finset.insert_erase hk0K, Finset.biUnion_insert,
      kindList_cons_self k0 l0 rest]
    have hcong : (K.erase k0).biUnion
        (fun t => EventDispatcher.maskOfList
          (EventDispatcher.kindList ((k0, l0) :: rest) t)) =
        (K.erase k0).biUnion
        (fun t => EventDispatcher.maskOfList (EventDispatcher.kindList rest t)) := by
      apply Finset.biUnion_congr rfl
      intro t htm
      rw [kindList_cons_ne k0 t l0 rest (Finset.mem_erase.mp htm).1]
    rw [hcong, ← ih (K.erase k0) hn.2
      (fun t htm => Finset.mem_erase.mpr
        ⟨fun he => hn.1 (he ▸ htm), hK t (List.mem_cons_of_mem _ htm)⟩)]

/-- Two kind maps without duplicated keys whose per-kind handler lists
are permutations of each other have the same composite mask. -/
theorem windowMask_congr (wh wh' : KindMap) (hn : nodupKeys wh)
    (hn' : nodupKeys wh')
    (hperm : ∀ t, List.Perm (EventDispatcher.kindList wh t)
      (EventDispatcher.kindList wh' t)) :
    EventDispatcher.windowMask wh = EventDispatcher.windowMask wh' := by
  set K := (akeys wh).toFinset ∪ (akeys wh').toFinset with hKdef
  rw [windowMask_eq_biUnion wh K hn
      (fun t ht => Finset.mem_union_left _ (List.mem_toFinset.mpr ht)),
    windowMask_eq_biUnion wh' K hn'
      (fun t ht => Finset.mem_union_right _ (List.mem_toFinset.mpr ht))]
  apply Finset.biUnion_congr rfl
  intro t _
  exact maskOfList_perm _ _ (hperm t)

theorem nodupKeys_regStep (h : Handler) (wh : KindMap) (t : Nat)
    (hn : nodupKeys wh) : nodupKeys (EventDispatcher.regStep h wh t) :=
  nodupKeys_aset wh t _ hn

theorem nodupKeys_unregStep (h : Handler) (wh : KindMap) (t : Nat)
    (hn : nodupKeys wh) : nodupKeys (EventDispatcher.unregStep h wh t) := by
  unfold EventDispatcher.unregStep
  by_cases he : (if h ∈ EventDispatcher.kindList wh t
      then (EventDispatcher.kindList wh t).erase h
      else EventDispatcher.kindList wh t).isEmpty
  · simp only [he, if_true]
    exact nodupKeys_aerase wh t hn
  · simp only [he, if_false]
    exact nodupKeys_aset wh t _ hn

theorem nodupKeys_foldl_regStep (h : Handler) (ts : List Nat) :
    ∀ wh : KindMap, nodupKeys wh →
      nodupKeys (ts.foldl (EventDispatcher.regStep h) wh) := by
  induction ts with
  | nil => exact fun wh hn => hn
  | cons t rest ih => exact fun wh hn => ih _ (nodupKeys_regStep h wh t hn)

theorem nodupKeys_foldl_unregStep (h : Handler) (ts : List Nat) :
    ∀ wh : KindMap, nodupKeys wh →
      nodupKeys (ts.foldl (EventDispatcher.unregStep h) wh) := by
  induction ts with
  | nil => exact fun wh hn => hn
  | cons t rest ih => exact fun wh hn => ih _ (nodupKeys_unregStep h wh t hn)

theorem kindList_unregStep_ne (h : Handler) (wh : KindMap) (t t' : Nat)
    (hne : t' ≠ t) :
    EventDispatcher.kindList (EventDispatcher.unregStep h wh t) t' =
      EventDispatcher.kindList wh t' := by
  unfold EventDispatcher.unregStep
  by_cases he : (if h ∈ EventDispatcher.kindList wh t
      then (EventDispatcher.kindList wh t).erase h
      else EventDispatcher.kindList wh t).isEmpty
  · simp only [he, if_true]
    unfold EventDispatcher.kindList
    rw [alookup_aerase_ne _ _ _ hne]
  · simp only [he, Bool.false_eq_true, if_false]
    unfold EventDispatcher.kindList
    rw [alookup_aset_ne _ _ _ _ hne]

theorem kindList_unregStep_self (h : Handler) (wh : KindMap) (t : Nat)
    (hn : nodupKeys wh) :
    EventDispatcher.kindList (EventDispatcher.unregStep h wh t) t =
      (if h ∈ EventDispatcher.kindList wh t
       then (EventDispatcher.kindList wh t).erase h
       else EventDispatcher.kindList wh t) := by
  unfold EventDispatcher.unregStep
  by_cases he : (if h ∈ EventDispatcher.kindList wh t
      then (EventDispatcher.kindList wh t).erase h
      else EventDispatcher.kindList wh t).isEmpty
  · simp only [he, if_true]
    unfold EventDispatcher.kindList
    rw [alookup_aerase_self wh t hn]
    exact (List.isEmpty_iff.mp he).symm
  · simp only [he, Bool.false_eq_true, if_false]
    unfold EventDispatcher.kindList
    rw [alookup_aset_self]
    rfl

theorem kindList_foldl_unregStep_not_mem (h : Handler) (ts : List Nat) :
    ∀ wh t, t ∉ ts →
      EventDispatcher.kindList (ts.foldl (EventDispatcher.unregStep h) wh) t =
        EventDispatcher.kindList wh t := by
  induction ts with
  | nil => exact fun wh t _ => rfl
  | cons t0 rest ih =>
    intro wh t ht
    have h1 : t ∉ rest := fun hm => ht (List.mem_cons_of_mem t0 hm)
    have h2 : t ≠ t0 := fun he => ht (he ▸ List.mem_cons_self t0 rest)
    rw [List.foldl_cons, ih _ t h1, kindList_unregStep_ne h wh t0 t h2]

theorem kindList_foldl_unregStep_mem (h : Handler) (ts : List Nat) :
    ∀ wh t, ts.Nodup → t ∈ ts → nodupKeys wh →
      EventDispatcher.kindList (ts.foldl (EventDispatcher.unregStep h) wh) t =
        (if h ∈ EventDispatcher.kindList wh t
         then (EventDispatcher.kindList wh t).erase h
         else EventDispatcher.kindList wh t) := by
  induction ts with
  | nil => exact fun wh t _ hm => absurd hm (List.not_mem_nil t)
  | cons t0 rest ih =>
    intro wh t hnd hm hn
    rw [List.nodup_cons] at hnd
    rw [List.foldl_cons]
    by_cases he : t = t0
    · subst he
      rw [kindList_foldl_unregStep_not_mem h rest _ t hnd.1,
        kindList_unregStep_self h wh t hn]
    · have hmr : t ∈ rest := by
        rcases List.mem_cons.mp hm with h' | h'
        · exact absurd h' he
        · exact h'
      rw [ih _ t hnd.2 hmr (nodupKeys_unregStep h wh t0 hn),
        kindList_unregStep_ne h wh t0 t he]

/-- Appending a handler to a list and then erasing its first occurrence
yields a permutation of the original list. -/
theorem erase_append_singleton_perm (l : List Handler) (h : Handler) :
    List.Perm ((l ++ [h]).erase h) l := by
  by_cases hm : h ∈ l
  · rw [List.erase_append_left _ hm]
    exact (List.perm_append_singleton h (l.erase h)).trans
      (List.perm_cons_erase hm).symm
  · rw [List.erase_append_right _ hm]
    simp

theorem unregisterCore_some (st : Registry) (wid : Nat) (hh : Handler)
    (wh : KindMap) (hlk : alookup st wid = some wh) :
    EventDispatcher.unregisterCore st wid (some hh) =
      aset st wid (hh.types.foldl (EventDispatcher.unregStep hh) wh) := by
  unfold EventDispatcher.unregisterCore
  rw [hlk]

/-- C3: for every registry state (with the no-duplicate-key property
Python dicts guarantee), registering a handler for a window and then
immediately unregistering it returns a composite mask for that window
equal to the composite mask before the register call. -/
theorem claim_C3 (st : Registry) (w : Nat) (h : Handler)
    (hst : nodupKeys st) (hkm : nodupKeys ((alookup st w).getD []))
    (hts : h.types.Nodup) :
    (EventDispatcher.unregister (EventDispatcher.register st w h).1
        (some w) (some h)).2
      = EventDispatcher.get_masks st w := by
  set km0 := (alookup st w).getD [] with hkm0
  set km1 := h.types.foldl (EventDispatcher.regStep h) km0 with hkm1
  set km2 := h.types.foldl (EventDispatcher.unregStep h) km1 with hkm2
  have hn1 : nodupKeys km1 := nodupKeys_foldl_regStep h h.types km0 hkm
  have hn2 : nodupKeys km2 := nodupKeys_foldl_unregStep h h.types km1 hn1
  have hst1 : (EventDispatcher.register st w h).1 = aset st w km1 := rfl
  have hnst1 : nodupKeys (aset st w km1) := nodupKeys_aset st w km1 hst
  have hlk1 : alookup (aset st w km1) w = some km1 := alookup_aset_self st w km1
  have hcore : EventDispatcher.unregisterCore (aset st w km1) w (some h) =
      aset (aset st w km1) w km2 := by
    rw [unregisterCore_some (aset st w km1) w h km1 hlk1]
  -- per-kind permutation between the final and the initial kind maps
  have hperm : ∀ t, List.Perm (EventDispatcher.kindList km2 t)
      (EventDispatcher.kindList km0 t) := by
    intro t
    by_cases hm : t ∈ h.types
    · rw [hkm2, kindList_foldl_unregStep_mem h h.types km1 t hts hm hn1,
        hkm1, kindList_foldl_regStep_mem h h.types km0 t hts hm]
      rw [if_pos (by simp)]
      exact erase_append_singleton_perm _ h
    · rw [hkm2, kindList_foldl_unregStep_not_mem h h.types km1 t hm,
        hkm1, kindList_foldl_regStep_not_mem h h.types km0 t hm]
  have hmask : EventDispatcher.windowMask km2 = EventDispatcher.windowMask km0 :=
    windowMask_congr km2 km0 hn2 hkm hperm
  have hgoal : EventDispatcher.get_masks
      (EventDispatcher.pruneWindow (aset (aset st w km1) w km2) w) w =
      EventDispatcher.get_masks st w := by
    have hlk2 : alookup (aset (aset st w km1) w km2) w = some km2 :=
      alookup_aset_self _ _ _
    unfold EventDispatcher.pruneWindow
    rw [hlk2]
    by_cases he : km2.isEmpty
    · simp only [he, if_true]
      rw [aerase_aset_self, aerase_aset_self]
      unfold EventDispatcher.get_masks
      rw [alookup_aerase_self st w hst]
      have hkm2nil : km2 = [] := List.isEmpty_iff.mp he
      rw [← hkm0, ← hmask, hkm2nil]
      rfl
    · simp only [he, Bool.false_eq_true, if_false]
      unfold EventDispatcher.get_masks
      rw [hlk2, ← hkm0]
      exact hmask
  show EventDispatcher.get_masks (EventDispatcher.pruneWindow
    (EventDispatcher.unregisterCore (EventDispatcher.register st w h).1 w (some h))
    w) w = EventDispatcher.get_masks st w
  rw [hst1, hcore]
  exact hgoal

/-- Witness for C3: a register/unregister round trip on a concrete
registry restores the composite mask of window 1. -/
theorem claim_C3_witness :
    (EventDispatcher.unregister
        (EventDispatcher.register [(1, [(5, [⟨2, [5], [8]⟩])])] 1 ⟨1, [5, 7], [16]⟩).1
        (some 1) (some ⟨1, [5, 7], [16]⟩)).2
      = EventDispatcher.get_masks [(1, [(5, [⟨2, [5], [8]⟩])])] 1 :=
  claim_C3 [(1, [(5, [⟨2, [5], [8]⟩])])] 1 ⟨1, [5, 7], [16]⟩
    (by decide) (by decide) (by decide)

end PyWO
